import Mathlib

/-!
Shallow embedding of focusforge.c (a terminal Pomodoro timer with a task
list and a streak tracker) together with proofs settling the behavioural
claims about it.

Modelling conventions:
- C strings are NUL-free `List Char`; C `int`/`long` values are `Int`
  (a stored long-to-int conversion is modelled by an explicit wrap).
- The flat files (session log, tasks file) are modelled as the list of
  lines the C code reads with fgets, or as a flat character list where
  the byte-level content matters.
- Wall-clock calls (time, localtime, strftime) are modelled by passing
  the relevant timestamps / formatted date strings as parameters.
- ncurses rendering is side-effect free with respect to every claim and
  is dropped; show_notification is modelled as recording the message.
-/

namespace FocusForge

/- Constants, focusforge.c lines 14-35. -/

def MAX_TASKS : Nat := 100

def MAX_TASK_LEN : Nat := 256

def FOCUS_DURATION : Int := 1500

def BREAK_DURATION : Int := 300

def MAX_INPUT_LEN : Nat := 512

def SESSION_INACTIVE : Int := 0

def SESSION_FOCUS : Int := 1

def SESSION_BREAK : Int := 2

/-- `LONG_MAX` on the 64-bit target. -/
def LONG_MAX : Int := 9223372036854775807

/- ---------------------------------------------------------------------
   String helpers shared by several C routines.
   --------------------------------------------------------------------- -/

/-- `strchr` based field splitting: the C code repeatedly finds the first
occurrence of a separator, overwrites it with NUL and keeps both halves.
`split_first sep l = some (before, after)` iff `sep` occurs in `l`. -/
def split_first (sep : Char) : List Char → Option (List Char × List Char)
  | [] => none
  | c :: rest =>
    if c = sep then some ([], rest)
    else
      match split_first sep rest with
      | some p => some (c :: p.1, p.2)
      | none => none

/-- `strchr` + overwrite-with-NUL used to cut a string at the first
occurrence of a character (no-op when the character is absent). -/
def chop_at (sep : Char) (l : List Char) : List Char :=
  match split_first sep l with
  | some p => p.1
  | none => l

/-- The whitespace class of `isspace` in the C locale, as used by
`strtol`/`atoi`. -/
def isSpaceC (c : Char) : Bool :=
  c == ' ' || c == '\t' || c == '\n' || c == Char.ofNat 11 || c == Char.ofNat 12 || c == '\r'

def isDigitC (c : Char) : Bool := '0' ≤ c && c ≤ '9'

def digitsVal (ds : List Char) : Int :=
  ds.foldl (fun a c => a * 10 + ((c.toNat : Int) - 48)) 0

/-- The common scanning core of `strtol(str, endptr, 10)` and `atoi`:
skip whitespace, read an optional sign, then a maximal digit run.
Returns `none` exactly when no digit is consumed (in the C code this is
the `endptr == str` condition); otherwise the exact mathematical value
of the consumed numeral (overflow handling is done by the callers). -/
def int_scan (l : List Char) : Option Int :=
  let t1 := l.dropWhile isSpaceC
  let st : Int × List Char :=
    match t1 with
    | '-' :: r => (-1, r)
    | '+' :: r => (1, r)
    | r => (1, r)
  let ds := st.2.takeWhile isDigitC
  if ds.isEmpty then none else some (st.1 * digitsVal ds)

/-- `atoi`, focusforge.c usage in `parse_csv_line` and `is_date_valid`. -/
def atoi (l : List Char) : Int := (int_scan l).getD 0

/-- Conversion of a (mathematical) long value into a 32-bit `int`, as gcc
performs when `validate_task_number` stores the `strtol` result through
an `int` pointer. -/
def wrap32 (v : Int) : Int := (v + 2147483648) % 4294967296 - 2147483648

/-- `validate_task_number`, focusforge.c lines 171-185: `strtol` the
argument; fail when `errno` was set (ERANGE), when no digits were
consumed (`endptr == str`), or when the stored `int` value is `≤ 0` or
`> MAX_TASKS`.  Returns the accepted task number. -/
def validate_task_number (str : List Char) : Option Int :=
  match int_scan str with
  | none => none
  | some v =>
    if v > LONG_MAX ∨ v < -LONG_MAX - 1 then none
    else
      let r := wrap32 v
      if r ≤ 0 ∨ r > (MAX_TASKS : Int) then none else some r

/- ---------------------------------------------------------------------
   Session log records and the streak engine.
   --------------------------------------------------------------------- -/

/-- The `Session` struct, focusforge.c lines 47-52.  Field sizes: date 10
chars, time 5 chars, description `MAX_TASK_LEN - 1` chars. -/
structure Session where
  date : List Char
  time : List Char
  duration : Int
  description : List Char
deriving DecidableEq, Repr

/-- The `StreakData` struct, focusforge.c lines 54-57. -/
structure StreakData where
  streak_max : Int
  streak_current : Int
deriving DecidableEq, Repr

/-- `parse_csv_line`, focusforge.c lines 814-861: copy the line into a
512-byte buffer (truncating at 511 characters), split off three
comma-terminated fields (date, time, duration), then require a
double-quoted task field.  The field copies truncate to the destination
buffer sizes via `safe_strncpy`. -/
def parse_csv_line (line : List Char) : Option Session :=
  let lc := line.take 511
  match split_first ',' lc with
  | none => none
  | some (f1, r1) =>
    match split_first ',' r1 with
    | none => none
    | some (f2, r2) =>
      match split_first ',' r2 with
      | none => none
      | some (f3, r3) =>
        match r3 with
        | '"' :: r4 =>
          match split_first '"' r4 with
          | none => none
          | some (f4, _) =>
            some { date := f1.take 10, time := f2.take 5, duration := atoi f3,
                   description := f4.take 255 }
        | _ => none

/-- The scanning loop of `update_streaks`, focusforge.c lines 940-960:
fold over the session-log lines, setting `had_session_yesterday` when a
parsed entry's date equals yesterday's string, else setting
`had_session_today` when it equals today's string.  Result:
`(had_session_yesterday, had_session_today)`. -/
def scan_sessions (yesterday today : List Char) (lines : List (List Char)) : Bool × Bool :=
  lines.foldl
    (fun acc line =>
      match parse_csv_line line with
      | some e =>
        if e.date = yesterday then (true, acc.2)
        else if e.date = today then (acc.1, true)
        else acc
      | none => acc)
    (false, false)

/-- `update_streaks`, focusforge.c lines 895-988.  The wall-clock calls
producing today's and yesterday's `YYYY-MM-DD` strings are passed in as
parameters; the meta-file load is the `meta` parameter and the meta-file
write-back is the return value. -/
def update_streaks (today yesterday : List Char) (lines : List (List Char))
    (meta : StreakData) : StreakData :=
  let flags := scan_sessions yesterday today lines
  if flags.2 then meta
  else if flags.1 then
    let cur := meta.streak_current + 1
    { streak_current := cur,
      streak_max := if cur > meta.streak_max then cur else meta.streak_max }
  else { meta with streak_current := 1 }

/-- The CSV line `log_session` appends, focusforge.c line 803:
`fprintf(fp, "%s,%s,%d,\"%s\"\n", date_str, time_str, duration, focus_task)`. -/
def format_csv_line (date time : List Char) (duration : Int) (label : List Char) : List Char :=
  date ++ [','] ++ time ++ [','] ++ (toString duration).data ++ [','] ++
    ['"'] ++ label ++ ['"', '\n']

/-- The streak engine contract `record_completed_focus_session` (spec
§4.2), which in the source is `log_session` (focusforge.c lines 779-811):
append one CSV record for the completed focus session to the sessions
file, then run `update_streaks`.  `update_streaks` re-reads the sessions
file, so it scans the log *with the new record already appended*.
`start_date`/`start_time` are the strftime renderings of the session's
start timestamp; `today`/`yesterday` are the wall-clock dates at call
time. -/
def record_completed_focus_session (today yesterday start_date start_time : List Char)
    (duration : Int) (label : List Char)
    (lines : List (List Char)) (meta : StreakData) : List (List Char) × StreakData :=
  let lines2 := lines ++ [format_csv_line start_date start_time duration label]
  (lines2, update_streaks today yesterday lines2 meta)

/- ---------------------------------------------------------------------
   Tasks, application state, and the session/timer state machine.
   --------------------------------------------------------------------- -/

/-- The `Task` struct, focusforge.c lines 42-45 (`done` is an int used as
a boolean). -/
structure Task where
  task : List Char
  done : Bool
deriving DecidableEq, Repr

/-- In-place update of `tasks[n].done`, as done by `mark_task_done` /
`unmark_task`. -/
def set_done : List Task → Nat → Bool → List Task
  | [], _, _ => []
  | t :: ts, 0, d => { t with done := d } :: ts
  | t :: ts, n + 1, d => t :: set_done ts n d

/-- `CommandType`, focusforge.c lines 589-602. -/
inductive CommandType
  | CMD_NONE
  | CMD_ADD_TASK
  | CMD_SET_FOCUS
  | CMD_MARK_DONE
  | CMD_UNMARK
  | CMD_REMOVE
  | CMD_START_FOCUS
  | CMD_START_BREAK
  | CMD_STOP
  | CMD_SKIP
  | CMD_QUIT
  | CMD_HELP
deriving DecidableEq, Repr

export CommandType (CMD_NONE CMD_ADD_TASK CMD_SET_FOCUS CMD_MARK_DONE CMD_UNMARK
  CMD_REMOVE CMD_START_FOCUS CMD_START_BREAK CMD_STOP CMD_SKIP CMD_QUIT CMD_HELP)

/-- `ParsedCommand`, focusforge.c lines 604-607. -/
structure ParsedCommand where
  type : CommandType
  argument : List Char
deriving DecidableEq, Repr

/-- `validate_input`, focusforge.c lines 575-586: reject empty input and
input of length `≥ MAX_INPUT_LEN`. -/
def validate_input (input : List Char) : Bool :=
  if input.length = 0 then false
  else if MAX_INPUT_LEN ≤ input.length then false
  else true

/-- The classification chain of `parse_command_input`, focusforge.c
lines 639-689, applied after the preprocessing below: empty gives
`CMD_NONE`; a single-character string is matched against the one-letter
commands; otherwise a leading letter `a`/`t`/`d`/`u`/`r` followed by a
space or tab introduces an argument command (the argument being the
rest, copied through a 512-byte `safe_strncpy`); everything else is an
implicit add-task of the whole remaining string. -/
def classify_command (cmd_str : List Char) : ParsedCommand :=
  if cmd_str.length = 0 then ⟨CMD_NONE, []⟩
  else if cmd_str.length = 1 ∧ cmd_str.headD ' ' = 'f' then ⟨CMD_START_FOCUS, []⟩
  else if cmd_str.length = 1 ∧ cmd_str.headD ' ' = 'b' then ⟨CMD_START_BREAK, []⟩
  else if cmd_str.length = 1 ∧ cmd_str.headD ' ' = 's' then ⟨CMD_STOP, []⟩
  else if cmd_str.length = 1 ∧ cmd_str.headD ' ' = 'd' then ⟨CMD_SKIP, []⟩
  else if cmd_str.length = 1 ∧ cmd_str.headD ' ' = 'q' then ⟨CMD_QUIT, []⟩
  else if cmd_str.length = 1 ∧ (cmd_str.headD ' ' = 'h' ∨ cmd_str.headD ' ' = '?') then
    ⟨CMD_HELP, []⟩
  else if cmd_str.headD ' ' = 'a' ∧ (cmd_str.get? 1 = some ' ' ∨ cmd_str.get? 1 = some '\t') then
    ⟨CMD_ADD_TASK, (cmd_str.drop 2).take 511⟩
  else if cmd_str.headD ' ' = 't' ∧ (cmd_str.get? 1 = some ' ' ∨ cmd_str.get? 1 = some '\t') then
    ⟨CMD_SET_FOCUS, (cmd_str.drop 2).take 511⟩
  else if cmd_str.headD ' ' = 'd' ∧ (cmd_str.get? 1 = some ' ' ∨ cmd_str.get? 1 = some '\t') then
    ⟨CMD_MARK_DONE, (cmd_str.drop 2).take 511⟩
  else if cmd_str.headD ' ' = 'u' ∧ (cmd_str.get? 1 = some ' ' ∨ cmd_str.get? 1 = some '\t') then
    ⟨CMD_UNMARK, (cmd_str.drop 2).take 511⟩
  else if cmd_str.headD ' ' = 'r' ∧ (cmd_str.get? 1 = some ' ' ∨ cmd_str.get? 1 = some '\t') then
    ⟨CMD_REMOVE, (cmd_str.drop 2).take 511⟩
  else ⟨CMD_ADD_TASK, cmd_str.take 511⟩

/-- `parse_command_input` continued: the preprocessing of lines 609-637
(validation, 512-byte copy, cut at the first newline and carriage
return, skip of leading blanks) followed by the classification above.
`none` models the C function returning 0. -/
def parse_command_input (input : List Char) : Option ParsedCommand :=
  if validate_input input = false then none
  else
    let cmd_copy := input.take 511
    let c1 := chop_at '\n' cmd_copy
    let c2 := chop_at '\r' c1
    some (classify_command (c2.dropWhile (fun c => c == ' ' || c == '\t')))

/-- The mutable program state of focusforge.c (the relevant globals,
lines 107-132).  `sessions_appended` counts the CSV records `log_session`
has appended to the sessions file (the record contents are modelled in
the streak-engine section above); `notice` is the last
`show_notification` message (display duration and window geometry are
pure rendering). -/
structure AppState where
  session_state : Int
  timer_seconds : Int
  session_start_time : Int
  sessions_appended : Nat
  notice : Option String
  tasks : List Task
  current_task_index : Int
  focus_task : List Char
  input_mode : Bool
  input_buffer : List Char
  show_help : Bool
  running : Bool
deriving DecidableEq, Repr

/-- The initial values of the globals (focusforge.c lines 107-132):
inactive session, timer at `FOCUS_DURATION`, focus task `"???"`, help
shown, normal input mode, running. -/
def initial_state : AppState where
  session_state := SESSION_INACTIVE
  timer_seconds := FOCUS_DURATION
  session_start_time := 0
  sessions_appended := 0
  notice := none
  tasks := []
  current_task_index := 0
  focus_task := "???".data
  input_mode := false
  input_buffer := []
  show_help := true
  running := true

/-- `show_notification`, focusforge.c lines 1362-1397, restricted to its
state effect: record the message (the expiry timestamp and the overlay
window are rendering concerns). -/
def show_notification (message : String) (s : AppState) : AppState :=
  { s with notice := some message }

/-- `log_session`, focusforge.c lines 779-811: append one CSV record for
the finished focus session to the sessions file.  Here only the fact
that exactly one record is appended matters; the record's bytes and the
subsequent `update_streaks` call are modelled in the streak-engine
section. -/
def log_session (s : AppState) : AppState :=
  { s with sessions_appended := s.sessions_appended + 1 }

/-- `start_focus_session`, focusforge.c lines 206-217.  `now` is the
`time(NULL)` value read when the session starts. -/
def start_focus_session (now : Int) (s : AppState) : AppState :=
  if s.session_state ≠ SESSION_INACTIVE then
    show_notification "Session already active" s
  else
    { s with session_state := SESSION_FOCUS, session_start_time := now,
             timer_seconds := FOCUS_DURATION, notice := some "Focus session started" }

/-- `start_break_session`, focusforge.c lines 219-230. -/
def start_break_session (now : Int) (s : AppState) : AppState :=
  if s.session_state ≠ SESSION_INACTIVE then
    show_notification "Session already active" s
  else
    { s with session_state := SESSION_BREAK, session_start_time := now,
             timer_seconds := BREAK_DURATION, notice := some "Break session started" }

/-- `stop_session`, focusforge.c lines 232-246: rejected only when
inactive; logs when stopping a focus session; always resets to inactive
with a full focus duration otherwise. -/
def stop_session (s : AppState) : AppState :=
  if s.session_state = SESSION_INACTIVE then
    show_notification "No active session" s
  else
    let s1 := if s.session_state = SESSION_FOCUS then log_session s else s
    { s1 with session_state := SESSION_INACTIVE, timer_seconds := FOCUS_DURATION,
              notice := some "Session stopped" }

/-- `skip_session`, focusforge.c lines 248-265. -/
def skip_session (s : AppState) : AppState :=
  if s.session_state = SESSION_INACTIVE then
    show_notification "No active session" s
  else if s.session_state = SESSION_FOCUS then
    { log_session s with session_state := SESSION_BREAK, timer_seconds := BREAK_DURATION,
                         notice := some "Focus session completed. Break started." }
  else if s.session_state = SESSION_BREAK then
    { s with session_state := SESSION_INACTIVE, timer_seconds := FOCUS_DURATION,
             notice := some "Break completed. Ready for next focus session." }
  else s

/-- The timer-expiry check at the top of each `run_timer` loop iteration,
focusforge.c lines 1327-1339. -/
def expire_check (s : AppState) : AppState :=
  if s.timer_seconds ≤ 0 ∧ s.session_state ≠ SESSION_INACTIVE then
    if s.session_state = SESSION_FOCUS then
      { log_session s with session_state := SESSION_BREAK, timer_seconds := BREAK_DURATION,
                           notice := some "Focus session completed! Break started." }
    else if s.session_state = SESSION_BREAK then
      { s with session_state := SESSION_INACTIVE, timer_seconds := FOCUS_DURATION,
               notice := some "Break completed! Ready for next focus session." }
    else s
  else s

/- ---------------------------------------------------------------------
   Task-list operations and command execution.
   --------------------------------------------------------------------- -/

/-- `add_task`, focusforge.c lines 437-454 (the NULL-pointer guard has no
counterpart for a Lean list).  The copy into the fixed `task` field
truncates at `MAX_TASK_LEN - 1` characters. -/
def add_task (text : List Char) (s : AppState) : AppState :=
  if MAX_TASKS ≤ s.tasks.length then
    show_notification "Maximum number of tasks reached" s
  else
    { s with tasks := s.tasks ++ [{ task := text.take 255, done := false }],
             notice := some "Task added" }

/-- `mark_task_done`, focusforge.c lines 456-464. -/
def mark_task_done (index : Int) (s : AppState) : AppState :=
  if 0 ≤ index ∧ index < (s.tasks.length : Int) then
    { s with tasks := set_done s.tasks index.toNat true, notice := some "Task marked as done" }
  else
    show_notification "Invalid task number" s

/-- `unmark_task`, focusforge.c lines 466-474. -/
def unmark_task (index : Int) (s : AppState) : AppState :=
  if 0 ≤ index ∧ index < (s.tasks.length : Int) then
    { s with tasks := set_done s.tasks index.toNat false, notice := some "Task unmarked" }
  else
    show_notification "Invalid task number" s

/-- `remove_task`, focusforge.c lines 476-488: shift every task after
`index` down by one and decrement the count (i.e. erase position
`index`); out-of-range indices are rejected with a notice. -/
def remove_task (index : Int) (s : AppState) : AppState :=
  if 0 ≤ index ∧ index < (s.tasks.length : Int) then
    { s with tasks := s.tasks.eraseIdx index.toNat, notice := some "Task removed" }
  else
    show_notification "Invalid task number" s

/-- `execute_command`, focusforge.c lines 692-768.  `now` is the
wall-clock time at which a session command executes. -/
def execute_command (now : Int) (cmd : ParsedCommand) (s : AppState) : AppState :=
  match cmd.type with
  | CMD_ADD_TASK => if 0 < cmd.argument.length then add_task cmd.argument s else s
  | CMD_SET_FOCUS =>
    if 0 < cmd.argument.length then
      { s with focus_task := cmd.argument.take 255, notice := some "Focus task updated" }
    else s
  | CMD_MARK_DONE =>
    match validate_task_number cmd.argument with
    | some n =>
      if 0 < n ∧ n ≤ (s.tasks.length : Int) then mark_task_done (n - 1) s
      else show_notification "Invalid task number" s
    | none => show_notification "Invalid task number" s
  | CMD_UNMARK =>
    match validate_task_number cmd.argument with
    | some n =>
      if 0 < n ∧ n ≤ (s.tasks.length : Int) then unmark_task (n - 1) s
      else show_notification "Invalid task number" s
    | none => show_notification "Invalid task number" s
  | CMD_REMOVE =>
    match validate_task_number cmd.argument with
    | some n =>
      if 0 < n ∧ n ≤ (s.tasks.length : Int) then remove_task (n - 1) s
      else show_notification "Invalid task number" s
    | none => show_notification "Invalid task number" s
  | CMD_START_FOCUS => start_focus_session now s
  | CMD_START_BREAK => start_break_session now s
  | CMD_STOP => stop_session s
  | CMD_SKIP => skip_session s
  | CMD_QUIT => { s with running := false }
  | CMD_HELP => s
  | CMD_NONE => s

/-- `parse_command` / `process_input`, focusforge.c lines 770-777 and
1403-1406. -/
def parse_command (now : Int) (input : List Char) (s : AppState) : AppState :=
  match parse_command_input input with
  | some cmd => execute_command now cmd s
  | none => s

/-- `finish_command_input`, focusforge.c lines 197-204: leave command
mode; when the buffer is non-empty, run the command and clear the
buffer. -/
def finish_command_input (now : Int) (s : AppState) : AppState :=
  let s0 := { s with input_mode := false }
  if 0 < s0.input_buffer.length then
    let s1 := parse_command now s0.input_buffer s0
    { s1 with input_buffer := [] }
  else s0

/-- The normal-mode single-key dispatch of `handle_key_input`,
focusforge.c lines 314-398.  The out-of-range read
`tasks[current_task_index]` on the Space key (possible because
command-mode removal does not clamp the selection) is modelled with a
default task. -/
def normal_mode_key (ch : Int) (now : Int) (s : AppState) : AppState :=
  if ch = 97 ∨ ch = 65 then start_focus_session now s
  else if ch = 115 ∨ ch = 83 then stop_session s
  else if ch = 100 ∨ ch = 68 then skip_session s
  else if ch = 102 ∨ ch = 70 then start_break_session now s
  else if ch = 106 ∨ ch = 74 then
    if 0 < s.tasks.length then
      if (mark_task_done s.current_task_index s).current_task_index <
          ((mark_task_done s.current_task_index s).tasks.length : Int) - 1 then
        { mark_task_done s.current_task_index s with
            current_task_index := (mark_task_done s.current_task_index s).current_task_index + 1 }
      else mark_task_done s.current_task_index s
    else s
  else if ch = 107 ∨ ch = 75 then
    if 0 < s.tasks.length then unmark_task s.current_task_index s else s
  else if ch = 108 ∨ ch = 76 then
    if 0 < s.tasks.length then
      if ((remove_task s.current_task_index s).tasks.length : Int) ≤
            (remove_task s.current_task_index s).current_task_index ∧
          0 < (remove_task s.current_task_index s).current_task_index then
        { remove_task s.current_task_index s with
            current_task_index := (remove_task s.current_task_index s).current_task_index - 1 }
      else remove_task s.current_task_index s
    else s
  else if ch = 119 ∨ ch = 87 then
    if 0 < s.current_task_index then
      { s with current_task_index := s.current_task_index - 1 }
    else s
  else if ch = 120 ∨ ch = 88 then
    if s.current_task_index < (s.tasks.length : Int) - 1 then
      { s with current_task_index := s.current_task_index + 1 }
    else s
  else if ch = 10 ∨ ch = 13 then { s with input_mode := true, input_buffer := [] }
  else if ch = 32 then
    if 0 < s.tasks.length then
      { s with focus_task := ((s.tasks.getD s.current_task_index.toNat
                                 { task := [], done := false }).task).take 255,
               notice := some "Focus task updated" }
    else s
  else s

/-- `handle_key_input`, focusforge.c lines 291-424.  `ch` is the raw
`getch()` code (ASCII for printable keys, 263 for `KEY_BACKSPACE`);
`now` is the wall-clock time passed on to session commands. -/
def handle_key_input (ch : Int) (now : Int) (s : AppState) : AppState :=
  if ch = 27 then { s with input_mode := false, input_buffer := [] }
  else if ¬s.input_mode ∧ (ch = 113 ∨ ch = 81) then { s with running := false }
  else if ¬s.input_mode ∧ (ch = 63 ∨ ch = 104 ∨ ch = 72) then
    { s with show_help := ¬s.show_help }
  else if ¬s.input_mode then normal_mode_key ch now s
  else if ch = 10 ∨ ch = 13 then finish_command_input now s
  else if ch = 263 ∨ ch = 127 ∨ ch = 8 then { s with input_buffer := s.input_buffer.dropLast }
  else if 32 ≤ ch ∧ ch < 127 ∧ s.input_buffer.length < MAX_INPUT_LEN - 1 then
    { s with input_buffer := s.input_buffer ++ [Char.ofNat ch.toNat] }
  else s

/- ---------------------------------------------------------------------
   The session operations as a transition system, and the main loop.
   --------------------------------------------------------------------- -/

/-- The five session/timer operations of the spec's state machine (§4.1).
`start_*`, `stop` and `skip` carry the `time(NULL)` value read during
the call; `expire` is the timer-expiry check at the top of a `run_timer`
iteration. -/
inductive Op
  | start_focus (now : Int)
  | start_break (now : Int)
  | stop
  | skip
  | expire
deriving DecidableEq, Repr

def apply_op (s : AppState) : Op → AppState
  | .start_focus now => start_focus_session now s
  | .start_break now => start_break_session now s
  | .stop => stop_session s
  | .skip => skip_session s
  | .expire => expire_check s

/-- One poll outcome of the main loop: either the 1-second `getch`
timeout or a key press; `now` is the wall-clock time during the
iteration. -/
structure LoopEvent where
  now : Int
  key : Option Int
deriving DecidableEq, Repr

/-- One iteration of `run_timer`'s main loop, focusforge.c lines
1318-1359: resize handling (pure rendering, dropped), the timer-expiry
check, then: on poll timeout decrement the timer iff a session is
active, otherwise route the key. -/
def loop_iter (s : AppState) (ev : LoopEvent) : AppState :=
  let s1 := expire_check s
  match ev.key with
  | none =>
    if s1.session_state ≠ SESSION_INACTIVE then
      { s1 with timer_seconds := s1.timer_seconds - 1 }
    else s1
  | some ch => handle_key_input ch ev.now s1

/-- `run_timer`, focusforge.c lines 1318-1359: iterate the loop body over
the incoming poll events while `running` holds. -/
def run_loop (s : AppState) (evs : List LoopEvent) : AppState :=
  evs.foldl (fun s ev => if s.running then loop_iter s ev else s) s

/- ---------------------------------------------------------------------
   Task-file persistence.
   --------------------------------------------------------------------- -/

/-- The line `save_tasks` writes per task, focusforge.c line 532:
`fprintf(fp, "[%c] %s\n", done ? 'X' : ' ', task)`. -/
def task_store_line (t : Task) : List Char :=
  '[' :: (if t.done then 'X' else ' ') :: ']' :: ' ' :: (t.task ++ ['\n'])

/-- `save_tasks`, focusforge.c lines 524-538: the bytes written to the
tasks file. -/
def save_tasks (ts : List Task) : List Char := (ts.map task_store_line).flatten

/-- `fgets(line, MAX_INPUT_LEN, fp)` splitting of a byte stream into
lines: a line ends after a `'\n'` or after `MAX_INPUT_LEN - 1 = 511`
characters, whichever comes first; a final unterminated chunk is still
returned.  `acc` holds the current line in reverse. -/
def read_lines_go : List Char → List Char → List (List Char)
  | acc, [] => if acc.isEmpty then [] else [acc.reverse]
  | acc, c :: rest =>
    if c = '\n' then (c :: acc).reverse :: read_lines_go [] rest
    else if 511 ≤ acc.length + 1 then (c :: acc).reverse :: read_lines_go [] rest
    else read_lines_go (c :: acc) rest

def read_lines (content : List Char) : List (List Char) := read_lines_go [] content

/-- The per-line loop of `load_tasks`, focusforge.c lines 549-568, with
`k` the current `num_tasks`.  The loop condition re-checks
`num_tasks < MAX_TASKS` after each read, so reading stops once
`MAX_TASKS` tasks are loaded.  A line is accepted when
`strlen(line) >= 4 && line[0] == '[' && line[2] == ']'`; then `done` is
whether `line[1] == 'X'`, and the text is everything from index 4 cut at
the first `'\n'`, truncated by `safe_strncpy` to `MAX_TASK_LEN - 1`
characters. -/
def load_lines : List (List Char) → Nat → List Task
  | [], _ => []
  | line :: rest, k =>
    if k < MAX_TASKS then
      if 4 ≤ line.length ∧ line.get? 0 = some '[' ∧ line.get? 2 = some ']' then
        { task := ((line.drop 4).takeWhile (fun c => c ≠ '\n')).take 255,
          done := line.get? 1 == some 'X' } :: load_lines rest (k + 1)
      else load_lines rest k
    else []

/-- `load_tasks`, focusforge.c lines 540-573, reading from a file whose
content is `content`. -/
def load_tasks (content : List Char) : List Task :=
  load_lines (read_lines content) 0

/- ---------------------------------------------------------------------
   Spec-side definitions, written from the (amended) claims' words, to be
   compared with the source-side definitions above.
   --------------------------------------------------------------------- -/

/-- Spec-side: the meaning of a single-letter command, per the claim's
table f/b/s/d/q/h/? for start-focus / start-break / stop / skip / quit /
help. -/
def single_letter_command (c : Char) : Option CommandType :=
  match c with
  | 'f' => some CMD_START_FOCUS
  | 'b' => some CMD_START_BREAK
  | 's' => some CMD_STOP
  | 'd' => some CMD_SKIP
  | 'q' => some CMD_QUIT
  | 'h' => some CMD_HELP
  | '?' => some CMD_HELP
  | _ => none

/-- Spec-side: the meaning of a letter that opens an argument-taking
command, per the claim's table a/t/d/u/r for add-task / set-focus-label /
mark-done / unmark / remove. -/
def argument_command (c : Char) : Option CommandType :=
  match c with
  | 'a' => some CMD_ADD_TASK
  | 't' => some CMD_SET_FOCUS
  | 'd' => some CMD_MARK_DONE
  | 'u' => some CMD_UNMARK
  | 'r' => some CMD_REMOVE
  | _ => none

/-- Spec-side: the command grammar as the amended C6 claim states it.
The submitted line (non-empty, shorter than `MAX_INPUT_LEN`) is cut at
its first newline and first carriage return and trimmed of *leading*
blanks only.  An empty remainder is a no-command; a one-character
remainder is looked up among the single-letter commands (an unknown
letter falls back to add-task); a remainder whose second character is a
space or tab and whose first letter opens an argument command takes the
rest as argument; every other remainder is an implicit add-task of the
whole remainder, trailing whitespace included. -/
def classify_grammar : List Char → ParsedCommand
  | [] => ⟨CMD_NONE, []⟩
  | [c] =>
    match single_letter_command c with
    | some ty => ⟨ty, []⟩
    | none => ⟨CMD_ADD_TASK, [c]⟩
  | c :: c2 :: rest =>
    if c2 = ' ' ∨ c2 = '\t' then
      match argument_command c with
      | some ty => ⟨ty, rest⟩
      | none => ⟨CMD_ADD_TASK, c :: c2 :: rest⟩
    else ⟨CMD_ADD_TASK, c :: c2 :: rest⟩

/-- Spec-side: the full grammar — a non-empty line shorter than
`MAX_INPUT_LEN`, cut at its first newline and carriage return, trimmed
of leading blanks only, then classified by `classify_grammar`. -/
def command_grammar (input : List Char) : Option ParsedCommand :=
  if input.length = 0 ∨ MAX_INPUT_LEN ≤ input.length then none
  else
    some (classify_grammar
      (((input.takeWhile (fun c => c ≠ '\n')).takeWhile (fun c => c ≠ '\r')).dropWhile
        (fun c => c == ' ' || c == '\t')))

/-- Spec-side: which task-file lines produce a task, as the amended C9
claim states it: a line of at least four characters shaped
`'[' c ']' _ text…` produces a task whose done flag is whether `c` is
`'X'` and whose text is everything from the fifth character up to the
first newline (truncated to the task-length bound); every other line is
ignored. -/
def task_line_parse (l : List Char) : Option Task :=
  match l with
  | '[' :: c1 :: ']' :: _ :: rest =>
    some { task := (rest.takeWhile (fun c => c ≠ '\n')).take 255, done := c1 == 'X' }
  | _ => none

/-- Spec-side (C4): whether applying `op` in state `s` ends a Focus
session — by stop, by skip, or by expiry of a non-positive timer. -/
def ends_focus_session (s : AppState) : Op → Bool
  | .stop => s.session_state == SESSION_FOCUS
  | .skip => s.session_state == SESSION_FOCUS
  | .expire => s.session_state == SESSION_FOCUS && decide (s.timer_seconds ≤ 0)
  | _ => false

/- Concrete program states used to exhibit behaviours. -/

/-- A state in the middle of a break (42 seconds left). -/
def break_state : AppState :=
  { initial_state with session_state := SESSION_BREAK, timer_seconds := 42 }

/-- A state with two pending tasks and the second one selected. -/
def two_tasks_state : AppState :=
  { initial_state with
      tasks := [{ task := "alpha".data, done := false }, { task := "beta".data, done := false }],
      current_task_index := 1 }

/-- A state with a single pending task. -/
def one_task_state : AppState :=
  { initial_state with tasks := [{ task := "alpha".data, done := false }] }

/-- The loop invariant behind C10: the timer is non-negative, an
inactive session always has a (strictly) positive timer (it is reset to
`FOCUS_DURATION` whenever the machine goes inactive), and the session
state is one of the three enum values. -/
def timer_inv (s : AppState) : Prop :=
  0 ≤ s.timer_seconds ∧
  (s.session_state = SESSION_INACTIVE → 0 < s.timer_seconds) ∧
  (s.session_state = SESSION_INACTIVE ∨ s.session_state = SESSION_FOCUS ∨
    s.session_state = SESSION_BREAK)

/- ---------------------------------------------------------------------
   Theorems settling the claims.
   --------------------------------------------------------------------- -/

/-- C1: the claim says that when `record_completed_focus_session` runs with
the log holding a yesterday entry and no today entry before the call,
`current_streak` increments by exactly 1.  The code violates this:
`log_session` appends today's CSV record *before* `update_streaks`
re-reads the log, so `update_streaks` always finds `had_session_today`
set and returns with the counters untouched.  Concretely: log =
one entry dated 2026-10-10 (yesterday), counters (max 3, current 3),
completing a focus session started today 2026-10-11 at 10:00.  The
claim's precondition holds on the pre-call log (a yesterday entry, no
today entry), yet the resulting counters are still (3, 3) instead of
the claimed (4, 4). -/
theorem streaks_never_advance_for_same_day_sessions :
    scan_sessions ("2026-10-10".data) ("2026-10-11".data)
        [("2026-10-10,09:00,1500,\"???\"\n".data)] = (true, false) ∧
    (record_completed_focus_session ("2026-10-11".data) ("2026-10-10".data)
        ("2026-10-11".data) ("10:00".data) 1500 ("???".data)
        [("2026-10-10,09:00,1500,\"???\"\n".data)]
        { streak_max := 3, streak_current := 3 }).2 =
      { streak_max := 3, streak_current := 3 } := by
  constructor
  · decide
  · decide

/-- C2 counterexample: the claim says `stop` invoked while the session
state is Break is rejected as a no-op with session state and timer
unchanged and a "no active session" notice.  In the code only the
Inactive case is rejected: stopping during a break falls through,
switches the state to Inactive, resets the timer to `FOCUS_DURATION`,
and shows "Session stopped". -/
theorem stop_on_break_changes_state :
    (stop_session break_state).session_state ≠ break_state.session_state ∧
    (stop_session break_state).timer_seconds ≠ break_state.timer_seconds ∧
    (stop_session break_state).notice ≠ some "No active session" := by
  decide

/-- C2 amended: `stop` while Inactive is rejected as a pure no-op with a
"No active session" notice and no log entry; `stop` while Break is *not*
rejected — it ends the break (state becomes Inactive, timer resets to
`FOCUS_DURATION`) while still appending no session-log entry, with a
"Session stopped" notice. -/
theorem stop_rejected_only_when_inactive :
    ∀ s : AppState,
      (s.session_state = SESSION_INACTIVE →
        stop_session s = show_notification "No active session" s) ∧
      (s.session_state = SESSION_BREAK →
        (stop_session s).session_state = SESSION_INACTIVE ∧
        (stop_session s).timer_seconds = FOCUS_DURATION ∧
        (stop_session s).sessions_appended = s.sessions_appended ∧
        (stop_session s).notice = some "Session stopped") := by
  intro s
  constructor
  · intro h
    simp [stop_session, h]
  · intro h
    simp [stop_session, h, SESSION_BREAK, SESSION_INACTIVE, SESSION_FOCUS,
      show_notification, log_session]

theorem stop_rejected_only_when_inactive_witness :
    stop_session initial_state = show_notification "No active session" initial_state ∧
    ((stop_session break_state).session_state = SESSION_INACTIVE ∧
     (stop_session break_state).timer_seconds = FOCUS_DURATION ∧
     (stop_session break_state).sessions_appended = break_state.sessions_appended ∧
     (stop_session break_state).notice = some "Session stopped") :=
  ⟨(stop_rejected_only_when_inactive initial_state).1 rfl,
   (stop_rejected_only_when_inactive break_state).2 rfl⟩

/- Helper lemmas: the session state only ever takes the three values of
the enum. -/

theorem state_wf_apply_op (s : AppState) (op : Op)
    (h : s.session_state = SESSION_INACTIVE ∨ s.session_state = SESSION_FOCUS ∨
         s.session_state = SESSION_BREAK) :
    (apply_op s op).session_state = SESSION_INACTIVE ∨
    (apply_op s op).session_state = SESSION_FOCUS ∨
    (apply_op s op).session_state = SESSION_BREAK := by
  cases op <;>
    simp only [apply_op, start_focus_session, start_break_session, stop_session,
      skip_session, expire_check, log_session, show_notification] <;>
    split_ifs <;> simp_all

theorem state_wf_foldl (ops : List Op) (s : AppState)
    (h : s.session_state = SESSION_INACTIVE ∨ s.session_state = SESSION_FOCUS ∨
         s.session_state = SESSION_BREAK) :
    (ops.foldl apply_op s).session_state = SESSION_INACTIVE ∨
    (ops.foldl apply_op s).session_state = SESSION_FOCUS ∨
    (ops.foldl apply_op s).session_state = SESSION_BREAK := by
  induction ops generalizing s with
  | nil => exact h
  | cons op rest ih => exact ih (apply_op s op) (state_wf_apply_op s op h)

/-- C3: over every sequence of start-focus/start-break/stop/skip/expire
operations from the initial (Inactive) state, the session state stays in
{Inactive, Focus, Break}; and a start call in a non-Inactive state
leaves the session state, the timer, and the session start time
unchanged (only a notice is shown). -/
theorem session_state_invariant_and_start_noop :
    (∀ ops : List Op,
      (ops.foldl apply_op initial_state).session_state = SESSION_INACTIVE ∨
      (ops.foldl apply_op initial_state).session_state = SESSION_FOCUS ∨
      (ops.foldl apply_op initial_state).session_state = SESSION_BREAK) ∧
    (∀ (s : AppState) (now : Int), s.session_state ≠ SESSION_INACTIVE →
      (start_focus_session now s).session_state = s.session_state ∧
      (start_focus_session now s).timer_seconds = s.timer_seconds ∧
      (start_focus_session now s).session_start_time = s.session_start_time ∧
      (start_break_session now s).session_state = s.session_state ∧
      (start_break_session now s).timer_seconds = s.timer_seconds ∧
      (start_break_session now s).session_start_time = s.session_start_time) := by
  constructor
  · intro ops
    exact state_wf_foldl ops initial_state (Or.inl rfl)
  · intro s now h
    simp [start_focus_session, start_break_session, show_notification, h]

theorem session_state_invariant_and_start_noop_witness :
    ((([Op.start_focus 5, Op.skip, Op.expire] : List Op).foldl apply_op
        initial_state).session_state = SESSION_INACTIVE ∨
     (([Op.start_focus 5, Op.skip, Op.expire] : List Op).foldl apply_op
        initial_state).session_state = SESSION_FOCUS ∨
     (([Op.start_focus 5, Op.skip, Op.expire] : List Op).foldl apply_op
        initial_state).session_state = SESSION_BREAK) ∧
    ((start_focus_session 7 break_state).session_state = break_state.session_state ∧
     (start_focus_session 7 break_state).timer_seconds = break_state.timer_seconds ∧
     (start_focus_session 7 break_state).session_start_time = break_state.session_start_time ∧
     (start_break_session 7 break_state).session_state = break_state.session_state ∧
     (start_break_session 7 break_state).timer_seconds = break_state.timer_seconds ∧
     (start_break_session 7 break_state).session_start_time = break_state.session_start_time) :=
  ⟨session_state_invariant_and_start_noop.1 [Op.start_focus 5, Op.skip, Op.expire],
   session_state_invariant_and_start_noop.2 break_state 7 (by decide)⟩

/-- C4: across every session/timer operation, the number of appended
session-log records grows by exactly 1 precisely when the operation ends
a Focus session (stop, skip, or expiry with a non-positive timer), and
by 0 otherwise — in particular a Break session ending in any way appends
nothing. -/
theorem one_log_entry_per_ended_focus_session :
    ∀ (s : AppState) (op : Op),
      (apply_op s op).sessions_appended =
        s.sessions_appended + (if ends_focus_session s op then 1 else 0) := by
  intro s op
  cases op <;>
    simp only [apply_op, ends_focus_session, start_focus_session, start_break_session,
      stop_session, skip_session, expire_check, log_session, show_notification] <;>
    split_ifs <;> simp_all [SESSION_INACTIVE, SESSION_FOCUS, SESSION_BREAK]

/- Helper lemmas on validated task numbers and `remove_task`. -/

theorem validate_task_number_range (arg : List Char) (n : Int)
    (h : validate_task_number arg = some n) : 0 < n ∧ n ≤ (MAX_TASKS : Int) := by
  unfold validate_task_number at h
  rcases hscan : int_scan arg with _ | v <;> rw [hscan] at h
  · exact absurd h (by simp)
  · have h' : (if v > LONG_MAX ∨ v < -LONG_MAX - 1 then (none : Option Int)
               else if wrap32 v ≤ 0 ∨ wrap32 v > (MAX_TASKS : Int) then none
               else some (wrap32 v)) = some n := h
    split_ifs at h' with h1 h2
    have hn : wrap32 v = n := Option.some.inj h'
    subst hn
    refine ⟨?_, ?_⟩
    · by_contra hle
      exact h2 (Or.inl (le_of_not_lt hle))
    · by_contra hgt
      exact h2 (Or.inr (lt_of_not_le hgt))

theorem remove_task_selection (i : Int) (s : AppState) :
    (remove_task i s).current_task_index = s.current_task_index := by
  unfold remove_task show_notification
  split_ifs <;> rfl

theorem remove_task_tasks_in_range (i : Nat) (s : AppState) (h : i < s.tasks.length) :
    (remove_task (i : Int) s).tasks = s.tasks.eraseIdx i := by
  unfold remove_task
  rw [if_pos (by constructor <;> [positivity; exact_mod_cast h])]
  simp

/-- C5 counterexample: the claim says the selection index is decremented
whenever it exceeds the new task count minus one, regardless of whether
removal came from the normal-mode key or from the command-mode `r N`
command.  In the code only the normal-mode key path clamps the
selection: removing task 2 of 2 via the command `r 2` with the second
task selected leaves the selection at index 1 although only one task
(index 0) remains. -/
theorem command_remove_does_not_clamp_selection :
    (execute_command 0 ⟨CMD_REMOVE, "2".data⟩ two_tasks_state).tasks.length = 1 ∧
    (execute_command 0 ⟨CMD_REMOVE, "2".data⟩ two_tasks_state).current_task_index = 1 := by
  decide

/-- C5 amended: removing the task at index i shifts all tasks at greater
indices down by one (texts and done flags preserved) and decrements the
count, and `remove_task` itself never touches the selection; the
selection adjustment exists only in the normal-mode remove-key handler,
where after removing the selected task the selection is decremented iff
it is not below the new task count and positive; the command-mode `r N`
path removes the task at the 0-based index N−1 and leaves the selection
unchanged. -/
theorem remove_task_shifts_indices :
    (∀ (s : AppState) (i : Nat), i < s.tasks.length →
      (remove_task (i : Int) s).tasks.length = s.tasks.length - 1 ∧
      (∀ j : Nat, j < i → (remove_task (i : Int) s).tasks.get? j = s.tasks.get? j) ∧
      (∀ j : Nat, i < j → j < s.tasks.length →
        (remove_task (i : Int) s).tasks.get? (j - 1) = s.tasks.get? j) ∧
      (remove_task (i : Int) s).current_task_index = s.current_task_index) ∧
    (∀ (s : AppState) (now : Int), s.input_mode = false → 0 < s.tasks.length →
      (handle_key_input 108 now s).tasks = (remove_task s.current_task_index s).tasks ∧
      (handle_key_input 108 now s).current_task_index =
        (if ((remove_task s.current_task_index s).tasks.length : Int) ≤ s.current_task_index
            ∧ 0 < s.current_task_index
         then s.current_task_index - 1 else s.current_task_index)) ∧
    (∀ (s : AppState) (now : Int) (arg : List Char) (n : Int),
      validate_task_number arg = some n → n ≤ (s.tasks.length : Int) →
      (execute_command now ⟨CMD_REMOVE, arg⟩ s).tasks = s.tasks.eraseIdx (n - 1).toNat ∧
      (execute_command now ⟨CMD_REMOVE, arg⟩ s).current_task_index =
        s.current_task_index) := by
  refine ⟨?_, ?_, ?_⟩
  · intro s i hi
    rw [remove_task_tasks_in_range i s hi]
    refine ⟨by simp [List.length_eraseIdx, hi], ?_, ?_, remove_task_selection _ _⟩
    · intro j hj
      simp [List.get?_eq_getElem?, List.getElem?_eraseIdx_of_lt, hj]
    · intro j hij hj
      have h1 : i ≤ j - 1 := by omega
      have h2 : j - 1 + 1 = j := by omega
      simp [List.get?_eq_getElem?, List.getElem?_eraseIdx_of_ge, h1, h2]
  · intro s now hm hn
    unfold handle_key_input normal_mode_key
    rw [if_neg (by decide), if_neg (by simp [hm]), if_neg (by simp [hm]),
      if_pos (by simp [hm])]
    rw [if_neg (by decide), if_neg (by decide), if_neg (by decide), if_neg (by decide),
      if_neg (by decide), if_neg (by decide), if_pos (by decide), if_pos hn]
    simp only [remove_task_selection]
    split_ifs <;> simp [remove_task_selection]
  · intro s now arg n hv hle
    have hpos := (validate_task_number_range arg n hv).1
    simp only [execute_command, hv]
    rw [if_pos ⟨hpos, hle⟩]
    have hidx : (n - 1).toNat < s.tasks.length := by omega
    have hcast : ((n - 1).toNat : Int) = n - 1 := by omega
    constructor
    · rw [show (n - 1 : Int) = (((n - 1).toNat : Nat) : Int) from hcast.symm]
      exact remove_task_tasks_in_range _ s hidx
    · exact remove_task_selection _ _

theorem remove_task_shifts_indices_witness :
    ((remove_task (0 : Int) two_tasks_state).tasks.length = two_tasks_state.tasks.length - 1 ∧
     (∀ j : Nat, j < 0 →
       (remove_task (0 : Int) two_tasks_state).tasks.get? j = two_tasks_state.tasks.get? j) ∧
     (∀ j : Nat, 0 < j → j < two_tasks_state.tasks.length →
       (remove_task (0 : Int) two_tasks_state).tasks.get? (j - 1) =
         two_tasks_state.tasks.get? j) ∧
     (remove_task (0 : Int) two_tasks_state).current_task_index =
       two_tasks_state.current_task_index) ∧
    ((handle_key_input 108 3 two_tasks_state).tasks =
       (remove_task two_tasks_state.current_task_index two_tasks_state).tasks ∧
     (handle_key_input 108 3 two_tasks_state).current_task_index =
       (if ((remove_task two_tasks_state.current_task_index two_tasks_state).tasks.length : Int)
             ≤ two_tasks_state.current_task_index ∧ 0 < two_tasks_state.current_task_index
        then two_tasks_state.current_task_index - 1
        else two_tasks_state.current_task_index)) ∧
    ((execute_command 3 ⟨CMD_REMOVE, "1".data⟩ two_tasks_state).tasks =
       two_tasks_state.tasks.eraseIdx ((1 : Int) - 1).toNat ∧
     (execute_command 3 ⟨CMD_REMOVE, "1".data⟩ two_tasks_state).current_task_index =
       two_tasks_state.current_task_index) :=
  ⟨remove_task_shifts_indices.1 two_tasks_state 0 (by decide),
   remove_task_shifts_indices.2.1 two_tasks_state 3 rfl (by decide),
   remove_task_shifts_indices.2.2 two_tasks_state 3 ("1".data) 1 (by decide) (by decide)⟩

/- Helper lemmas relating the C parser's string surgery to takeWhile /
dropWhile form. -/

theorem chop_at_cons (sep c : Char) (rest : List Char) :
    chop_at sep (c :: rest) = if c = sep then [] else c :: chop_at sep rest := by
  by_cases hc : c = sep
  · simp [chop_at, split_first, hc]
  · rcases hsp : split_first sep rest with _ | p <;>
      simp [chop_at, split_first, hc, hsp]

theorem chop_at_eq_takeWhile (sep : Char) (l : List Char) :
    chop_at sep l = l.takeWhile (fun c => c ≠ sep) := by
  induction l with
  | nil => rfl
  | cons c rest ih =>
    rw [chop_at_cons, List.takeWhile_cons, ih]
    by_cases hc : c = sep <;> simp [hc]

theorem takeWhile_length_le (p : Char → Bool) (l : List Char) :
    (l.takeWhile p).length ≤ l.length := by
  induction l with
  | nil => simp
  | cons c rest ih =>
    rw [List.takeWhile_cons]
    split
    · simpa using ih
    · simp

theorem dropWhile_length_le (p : Char → Bool) (l : List Char) :
    (l.dropWhile p).length ≤ l.length := by
  induction l with
  | nil => simp
  | cons c rest ih =>
    rw [List.dropWhile_cons]
    split
    · exact le_trans ih (by simp)
    · exact le_rfl

theorem classify_command_eq_grammar (t : List Char) (hlen : t.length ≤ 511) :
    classify_command t = classify_grammar t := by
  rcases t with _ | ⟨c, _ | ⟨c2, r⟩⟩
  · rfl
  · by_cases hf : c = 'f'; · subst hf; rfl
    by_cases hb : c = 'b'; · subst hb; rfl
    by_cases hs : c = 's'; · subst hs; rfl
    by_cases hd : c = 'd'; · subst hd; rfl
    by_cases hq : c = 'q'; · subst hq; rfl
    by_cases hh : c = 'h'; · subst hh; rfl
    by_cases hqm : c = '?'; · subst hqm; rfl
    simp [classify_command, classify_grammar, single_letter_command,
      hf, hb, hs, hd, hq, hh, hqm]
  · have hr : r.length ≤ 509 := by simpa using hlen
    have hne1 : ¬(c :: c2 :: r).length = 1 := by simp
    have hne0 : ¬(c :: c2 :: r).length = 0 := by simp
    have hdropeq : ((c :: c2 :: r).drop 2).take 511 = r :=
      List.take_of_length_le (by simpa using le_trans hr (by omega))
    have htakeeq : (c :: c2 :: r).take 511 = c :: c2 :: r :=
      List.take_of_length_le (by simp; omega)
    by_cases h2 : c2 = ' ' ∨ c2 = '\t'
    · have h2' : ((c :: c2 :: r).get? 1 = some ' ' ∨ (c :: c2 :: r).get? 1 = some '\t') := by
        rcases h2 with h | h <;> simp [h]
      by_cases ha : c = 'a'
      · subst ha
        simp [classify_command, classify_grammar, argument_command, hne0, hne1, h2, h2', hdropeq]
        omega
      by_cases ht : c = 't'
      · subst ht
        simp [classify_command, classify_grammar, argument_command, hne0, hne1, h2, h2', hdropeq]
        omega
      by_cases hd : c = 'd'
      · subst hd
        simp [classify_command, classify_grammar, argument_command, hne0, hne1, h2, h2', hdropeq]
        omega
      by_cases hu : c = 'u'
      · subst hu
        simp [classify_command, classify_grammar, argument_command, hne0, hne1, h2, h2', hdropeq]
        omega
      by_cases hrr : c = 'r'
      · subst hrr
        simp [classify_command, classify_grammar, argument_command, hne0, hne1, h2, h2', hdropeq]
        omega
      simp [classify_command, classify_grammar, argument_command, hne0, hne1, h2,
        ha, ht, hd, hu, hrr, htakeeq]
    · have h2' : ¬((c :: c2 :: r).get? 1 = some ' ' ∨ (c :: c2 :: r).get? 1 = some '\t') := by
        push_neg at h2 ⊢
        constructor <;> simp [h2.1, h2.2]
      simp [classify_command, classify_grammar, hne0, hne1, h2, h2', htakeeq]

/-- C6 counterexample: the claim says trailing whitespace is trimmed
before classification, so `"f "` would be the single-letter start-focus
command.  The parser trims only leading whitespace: `"f "` has length 2
after preprocessing and falls through to the implicit add-task with the
trailing blank kept in the task text. -/
theorem trailing_space_defeats_single_letter_command :
    parse_command_input ("f ".data) = some ⟨CMD_ADD_TASK, "f ".data⟩ ∧
    CMD_ADD_TASK ≠ CMD_START_FOCUS := by
  decide

/-- C6 amended: for every submitted line, the parser cuts the line at
its first newline and first carriage return, trims *leading* blanks
only, and then classifies: a one-character remainder maps f/b/s/d/q/h/?
to start-focus/start-break/stop/skip/quit/help; a remainder whose first
letter is a/t/d/u/r followed by a space or tab takes the rest of the
line (trailing whitespace included) as the argument of
add-task/set-focus/mark-done/unmark/remove; any other non-empty
remainder is an implicit add-task of the whole remainder, trailing
whitespace included.  Stated as a refinement: the source parser equals
the spec-side grammar on every input. -/
theorem parse_command_input_refines_grammar :
    ∀ input : List Char, parse_command_input input = command_grammar input := by
  intro input
  unfold parse_command_input command_grammar validate_input
  by_cases h0 : input.length = 0
  · simp [h0]
  · by_cases h1 : MAX_INPUT_LEN ≤ input.length
    · simp [h0, h1]
    · have hle : input.length ≤ 511 := by
        unfold MAX_INPUT_LEN at h1; omega
      rw [if_neg (by simp [h0, h1]), if_neg (by simp [h0, h1])]
      simp only [List.take_of_length_le hle, chop_at_eq_takeWhile]
      refine congrArg some (classify_command_eq_grammar _ ?_)
      exact le_trans (dropWhile_length_le _ _)
        (le_trans (takeWhile_length_le _ _) (le_trans (takeWhile_length_le _ _) hle))

/-- C7 counterexample: the claim says the task list is mutated only when
the argument string parses as a positive integer, and that any invalid
number leaves the list unchanged.  `validate_task_number` uses `strtol`
and only rejects when *no digits at all* were consumed, so the string
"2abc" — not a positive-integer numeral — is accepted as task number 2
and `d 2abc` marks task 2 done. -/
theorem trailing_garbage_accepted_as_task_number :
    validate_task_number ("2abc".data) = some 2 ∧
    (execute_command 0 ⟨CMD_MARK_DONE, "2abc".data⟩ two_tasks_state).tasks ≠
      two_tasks_state.tasks := by
  decide

/-- C7 amended: for the mark-done/unmark/remove commands, the accepted
argument is its `strtol` prefix — optional whitespace and sign followed
by at least one digit, any trailing characters ignored — whose
(int-converted) value must lie in [1, MAX_TASKS]; the task list is
mutated exactly when that value also refers to an existing task (as the
0-based index value−1), and otherwise (including `d 2` with a single
task) an invalid-task-number notice is shown and the task list is left
unchanged. -/
theorem task_number_commands_mutate_iff_validated :
    (∀ (arg : List Char) (n : Int),
      validate_task_number arg = some n → 0 < n ∧ n ≤ (MAX_TASKS : Int)) ∧
    (∀ (now : Int) (s : AppState) (arg : List Char) (n : Int),
      validate_task_number arg = some n → n ≤ (s.tasks.length : Int) →
      (execute_command now ⟨CMD_MARK_DONE, arg⟩ s).tasks =
        set_done s.tasks (n - 1).toNat true ∧
      (execute_command now ⟨CMD_UNMARK, arg⟩ s).tasks =
        set_done s.tasks (n - 1).toNat false ∧
      (execute_command now ⟨CMD_REMOVE, arg⟩ s).tasks = s.tasks.eraseIdx (n - 1).toNat) ∧
    (∀ (now : Int) (s : AppState) (arg : List Char) (ty : CommandType),
      (ty = CMD_MARK_DONE ∨ ty = CMD_UNMARK ∨ ty = CMD_REMOVE) →
      (validate_task_number arg = none ∨
        (∃ n, validate_task_number arg = some n ∧ (s.tasks.length : Int) < n)) →
      (execute_command now ⟨ty, arg⟩ s).tasks = s.tasks ∧
      (execute_command now ⟨ty, arg⟩ s).notice = some "Invalid task number") := by
  refine ⟨validate_task_number_range, ?_, ?_⟩
  · intro now s arg n hv hle
    have hpos := (validate_task_number_range arg n hv).1
    have hrange : 0 ≤ n - 1 ∧ n - 1 < (s.tasks.length : Int) := by omega
    refine ⟨?_, ?_, ?_⟩
    · simp only [execute_command, hv]
      rw [if_pos ⟨hpos, hle⟩]
      simp [mark_task_done, hrange]
    · simp only [execute_command, hv]
      rw [if_pos ⟨hpos, hle⟩]
      simp [unmark_task, hrange]
    · simp only [execute_command, hv]
      rw [if_pos ⟨hpos, hle⟩]
      have hidx : (n - 1).toNat < s.tasks.length := by omega
      have hcast : ((n - 1).toNat : Int) = n - 1 := by omega
      rw [show (n - 1 : Int) = (((n - 1).toNat : Nat) : Int) from hcast.symm]
      exact remove_task_tasks_in_range _ s hidx
  · intro now s arg ty hty hbad
    rcases hty with rfl | rfl | rfl <;>
      · simp only [execute_command]
        rcases hbad with hnone | ⟨n, hsome, hgt⟩
        · simp only [hnone]
          exact ⟨rfl, rfl⟩
        · simp only [hsome]
          rw [if_neg (by intro hc; omega)]
          exact ⟨rfl, rfl⟩

theorem task_number_commands_mutate_iff_validated_witness :
    (0 < (2 : Int) ∧ (2 : Int) ≤ (MAX_TASKS : Int)) ∧
    ((execute_command 0 ⟨CMD_MARK_DONE, "1".data⟩ one_task_state).tasks =
       set_done one_task_state.tasks ((1 : Int) - 1).toNat true ∧
     (execute_command 0 ⟨CMD_UNMARK, "1".data⟩ one_task_state).tasks =
       set_done one_task_state.tasks ((1 : Int) - 1).toNat false ∧
     (execute_command 0 ⟨CMD_REMOVE, "1".data⟩ one_task_state).tasks =
       one_task_state.tasks.eraseIdx ((1 : Int) - 1).toNat) ∧
    ((execute_command 0 ⟨CMD_MARK_DONE, "2".data⟩ one_task_state).tasks =
       one_task_state.tasks ∧
     (execute_command 0 ⟨CMD_MARK_DONE, "2".data⟩ one_task_state).notice =
       some "Invalid task number") :=
  ⟨task_number_commands_mutate_iff_validated.1 ("2".data) 2 (by decide),
   task_number_commands_mutate_iff_validated.2.1 0 one_task_state ("1".data) 1
     (by decide) (by decide),
   task_number_commands_mutate_iff_validated.2.2 0 one_task_state ("2".data) CMD_MARK_DONE
     (Or.inl rfl) (Or.inr ⟨2, by decide, by decide⟩)⟩

/- Helper lemmas for the task-file loader. -/

theorem task_line_parse_eq (l : List Char) :
    task_line_parse l =
      (if 4 ≤ l.length ∧ l.get? 0 = some '[' ∧ l.get? 2 = some ']' then
        some { task := ((l.drop 4).takeWhile (fun c => c ≠ '\n')).take 255,
               done := l.get? 1 == some 'X' }
      else none) := by
  rcases l with _ | ⟨a, _ | ⟨b, _ | ⟨c, _ | ⟨d, r⟩⟩⟩⟩
  · simp [task_line_parse]
  · simp [task_line_parse]
  · simp [task_line_parse]
  · simp [task_line_parse]
  · by_cases ha : a = '['
    · by_cases hc : c = ']'
      · subst ha; subst hc
        simp [task_line_parse]
      · subst ha
        simp [task_line_parse, hc]
    · simp [task_line_parse, ha]

theorem load_lines_eq_filterMap (lines : List (List Char)) :
    ∀ k, k ≤ MAX_TASKS →
      load_lines lines k = (lines.filterMap task_line_parse).take (MAX_TASKS - k) := by
  induction lines with
  | nil => intro k hk; simp [load_lines]
  | cons line rest ih =>
    intro k hk
    by_cases hk100 : k < MAX_TASKS
    · unfold load_lines
      rw [if_pos hk100]
      by_cases hcond : 4 ≤ line.length ∧ line.get? 0 = some '[' ∧ line.get? 2 = some ']'
      · rw [if_pos hcond, ih (k + 1) (by omega)]
        have hp : task_line_parse line =
            some { task := ((line.drop 4).takeWhile (fun c => c ≠ '\n')).take 255,
                   done := line.get? 1 == some 'X' } := by
          rw [task_line_parse_eq, if_pos hcond]
        rw [List.filterMap_cons, hp]
        have hsub : MAX_TASKS - k = (MAX_TASKS - (k + 1)) + 1 := by
          unfold MAX_TASKS at *; omega
        rw [hsub, List.take_succ_cons]
      · rw [if_neg hcond, ih k hk]
        have hp : task_line_parse line = none := by
          rw [task_line_parse_eq, if_neg hcond]
        rw [List.filterMap_cons, hp]
    · have hke : k = MAX_TASKS := by omega
      subst hke
      unfold load_lines
      rw [if_neg (by omega)]
      simp

/-- C9 counterexample: the claim says only lines of the exact form
`[ ] text` or `[X] text` (bracket pair, space or X inside, then exactly
one space, then the label) produce a task, and every other line is
ignored.  The loader checks only `strlen ≥ 4`, `line[0] == '['` and
`line[2] == ']'`: the line `[X]xyz` — with no space after the bracket
pair — matches neither claimed form yet produces the done task "yz"
(the loader unconditionally skips four characters). -/
theorem bracket_line_without_space_loads_task :
    load_lines [("[X]xyz\n".data)] 0 = [{ task := "yz".data, done := true }] ∧
    load_lines [("[X]xyz\n".data)] 0 ≠ [] := by
  decide

/-- C9 amended: while fewer than MAX_TASKS tasks have been loaded, a
line produces a task iff it has at least four characters with `'['` at
index 0 and `']'` at index 2 — the characters at indices 1 and 3 are
unconstrained; the task is done iff the character at index 1 is `'X'`,
and its text is everything from index 4 up to the first newline
(truncated to the task-length bound).  Every other line is ignored, and
loading stops after MAX_TASKS tasks. -/
theorem load_tasks_line_filter :
    ∀ lines : List (List Char),
      load_lines lines 0 = (lines.filterMap task_line_parse).take MAX_TASKS := by
  intro lines
  simpa using load_lines_eq_filterMap lines 0 (by omega)

/- Helper lemmas for the save/load round trip. -/

theorem takeWhile_until_newline (l r : List Char) (h : '\n' ∉ l) :
    (l ++ '\n' :: r).takeWhile (fun c => c ≠ '\n') = l := by
  induction l with
  | nil => simp [List.takeWhile_cons]
  | cons c cl ih =>
    have hc : ¬ c = '\n' := fun hh => h (by simp [hh])
    rw [List.cons_append, List.takeWhile_cons, if_pos (by simp [hc]),
      ih (fun hm => h (List.mem_cons_of_mem _ hm))]

theorem read_lines_go_cons (acc : List Char) (c : Char) (rest : List Char) :
    read_lines_go acc (c :: rest) =
      (if c = '\n' then (c :: acc).reverse :: read_lines_go [] rest
       else if 511 ≤ acc.length + 1 then (c :: acc).reverse :: read_lines_go [] rest
       else read_lines_go (c :: acc) rest) := rfl

theorem read_lines_go_line (pre : List Char) :
    ∀ (post acc : List Char), '\n' ∉ pre → acc.length + pre.length + 1 ≤ 511 →
      read_lines_go acc (pre ++ '\n' :: post) =
        (acc.reverse ++ pre ++ ['\n']) :: read_lines_go [] post := by
  induction pre with
  | nil =>
    intro post acc _ _
    simp [read_lines_go]
  | cons c pre ih =>
    intro post acc hnl hlen
    have hc : ¬ c = '\n' := fun hh => hnl (by simp [hh])
    have hcap : ¬ 511 ≤ acc.length + 1 := by
      simp only [List.length_cons] at hlen; omega
    rw [List.cons_append, read_lines_go_cons, if_neg hc, if_neg hcap]
    rw [ih post (c :: acc) (fun hm => hnl (List.mem_cons_of_mem _ hm))
      (by simp only [List.length_cons] at hlen ⊢; omega)]
    simp

theorem read_lines_save (ts : List Task)
    (h : ∀ t ∈ ts, t.task.length ≤ 255 ∧ '\n' ∉ t.task) :
    read_lines (save_tasks ts) = ts.map task_store_line := by
  unfold read_lines save_tasks
  induction ts with
  | nil => rfl
  | cons t rest ih =>
    obtain ⟨hlen, hnl⟩ := h t (by simp)
    simp only [List.map_cons, List.flatten_cons]
    have hshape : task_store_line t ++ (rest.map task_store_line).flatten =
        ('[' :: (if t.done then 'X' else ' ') :: ']' :: ' ' :: t.task) ++
          '\n' :: (rest.map task_store_line).flatten := by
      simp [task_store_line]
    rw [hshape, read_lines_go_line _ _ []
      (by
        intro hm
        simp only [List.mem_cons] at hm
        rcases hm with h1 | h1 | h1 | h1 | h1
        · exact absurd h1 (by decide)
        · split at h1 <;> exact absurd h1 (by decide)
        · exact absurd h1 (by decide)
        · exact absurd h1 (by decide)
        · exact hnl h1)
      (by simp only [List.length_nil, List.length_cons]; omega)]
    rw [ih (fun t ht => h t (List.mem_cons_of_mem _ ht))]
    simp [task_store_line]

theorem load_lines_save (ts : List Task) :
    ∀ k, k + ts.length ≤ MAX_TASKS →
      (∀ t ∈ ts, t.task.length ≤ 255 ∧ '\n' ∉ t.task) →
      load_lines (ts.map task_store_line) k = ts := by
  induction ts with
  | nil => intro k _ _; rfl
  | cons t rest ih =>
    intro k hk hwf
    obtain ⟨hlen, hnl⟩ := hwf t (by simp)
    simp only [List.map_cons]
    unfold load_lines
    rw [if_pos (by unfold MAX_TASKS at *; simp only [List.length_cons] at hk; omega)]
    rw [if_pos (by refine ⟨?_, rfl, rfl⟩; simp [task_store_line])]
    have hdrop : (task_store_line t).drop 4 = t.task ++ '\n' :: [] := by
      simp [task_store_line]
    have htask : (((task_store_line t).drop 4).takeWhile (fun c => c ≠ '\n')).take 255 =
        t.task := by
      rw [hdrop, takeWhile_until_newline _ _ hnl, List.take_of_length_le hlen]
    have hdone : ((task_store_line t).get? 1 == some 'X') = t.done := by
      cases ht : t.done <;> simp [task_store_line, ht]
    rw [htask, hdone]
    rw [ih (k + 1) (by simp only [List.length_cons] at hk; omega)
      (fun t ht => hwf t (List.mem_cons_of_mem _ ht))]

/-- C8: writing any task list of at most MAX_TASKS tasks whose texts fit
the in-memory task bound (at most `MAX_TASK_LEN - 1` characters) and
contain no newline, then reloading it, restores exactly the same list —
texts and done flags — including texts containing the `'['` and `']'`
marker characters. -/
theorem tasks_save_load_round_trip :
    ∀ ts : List Task, ts.length ≤ MAX_TASKS →
      (∀ t ∈ ts, t.task.length ≤ 255 ∧ '\n' ∉ t.task) →
      load_tasks (save_tasks ts) = ts := by
  intro ts hl hwf
  unfold load_tasks
  rw [read_lines_save ts hwf, load_lines_save ts 0 (by omega) hwf]

theorem tasks_save_load_round_trip_witness :
    load_tasks (save_tasks [{ task := "[a] b".data, done := true },
                            { task := "x[]".data, done := false }]) =
      [{ task := "[a] b".data, done := true }, { task := "x[]".data, done := false }] :=
  tasks_save_load_round_trip
    [{ task := "[a] b".data, done := true }, { task := "x[]".data, done := false }]
    (by decide) (by decide)

/- Helper lemmas: every operation reachable from the main loop preserves
`timer_inv`. -/

theorem timer_inv_congr (s t : AppState) (h1 : t.session_state = s.session_state)
    (h2 : t.timer_seconds = s.timer_seconds) (h : timer_inv s) : timer_inv t := by
  unfold timer_inv at *
  rw [h1, h2]
  exact h

theorem timer_inv_values (t : AppState)
    (hs : t.session_state = SESSION_INACTIVE ∨ t.session_state = SESSION_FOCUS ∨
          t.session_state = SESSION_BREAK)
    (ht : t.timer_seconds = FOCUS_DURATION ∨ t.timer_seconds = BREAK_DURATION) :
    timer_inv t := by
  unfold timer_inv at *
  unfold SESSION_INACTIVE SESSION_FOCUS SESSION_BREAK FOCUS_DURATION BREAK_DURATION at *
  exact ⟨by omega, fun _ => by omega, hs⟩

theorem timer_inv_start_focus (now : Int) (s : AppState) (h : timer_inv s) :
    timer_inv (start_focus_session now s) := by
  unfold start_focus_session show_notification
  split_ifs
  · exact h
  · exact timer_inv_values _ (Or.inr (Or.inl rfl)) (Or.inl rfl)

theorem timer_inv_start_break (now : Int) (s : AppState) (h : timer_inv s) :
    timer_inv (start_break_session now s) := by
  unfold start_break_session show_notification
  split_ifs
  · exact h
  · exact timer_inv_values _ (Or.inr (Or.inr rfl)) (Or.inr rfl)

theorem timer_inv_stop (s : AppState) (h : timer_inv s) : timer_inv (stop_session s) := by
  unfold stop_session log_session show_notification
  split_ifs
  · exact h
  · exact timer_inv_values _ (Or.inl rfl) (Or.inl rfl)
  · exact timer_inv_values _ (Or.inl rfl) (Or.inl rfl)

theorem timer_inv_skip (s : AppState) (h : timer_inv s) : timer_inv (skip_session s) := by
  unfold skip_session log_session show_notification
  split_ifs
  · exact h
  · exact timer_inv_values _ (Or.inr (Or.inr rfl)) (Or.inr rfl)
  · exact timer_inv_values _ (Or.inl rfl) (Or.inl rfl)
  · exact h

theorem timer_inv_expire_strong (s : AppState) (h : timer_inv s) :
    timer_inv (expire_check s) ∧
    ((expire_check s).session_state ≠ SESSION_INACTIVE →
      1 ≤ (expire_check s).timer_seconds) := by
  unfold expire_check log_session
  split_ifs with h1 h2 h3
  · refine ⟨timer_inv_values _ (Or.inr (Or.inr rfl)) (Or.inr rfl), fun _ => ?_⟩
    show (1 : Int) ≤ BREAK_DURATION
    decide
  · exact ⟨timer_inv_values _ (Or.inl rfl) (Or.inl rfl), fun hh => absurd rfl hh⟩
  · refine absurd h.2.2 ?_
    intro hwf
    rcases hwf with h0 | h0 | h0
    · exact h1.2 h0
    · exact h2 h0
    · exact h3 h0
  · refine ⟨h, fun hs => ?_⟩
    have ha := h.1
    omega

theorem fields_add_task (text : List Char) (s : AppState) :
    (add_task text s).session_state = s.session_state ∧
    (add_task text s).timer_seconds = s.timer_seconds := by
  unfold add_task show_notification
  split_ifs <;> exact ⟨rfl, rfl⟩

theorem fields_mark (i : Int) (s : AppState) :
    (mark_task_done i s).session_state = s.session_state ∧
    (mark_task_done i s).timer_seconds = s.timer_seconds := by
  unfold mark_task_done show_notification
  split_ifs <;> exact ⟨rfl, rfl⟩

theorem fields_unmark (i : Int) (s : AppState) :
    (unmark_task i s).session_state = s.session_state ∧
    (unmark_task i s).timer_seconds = s.timer_seconds := by
  unfold unmark_task show_notification
  split_ifs <;> exact ⟨rfl, rfl⟩

theorem fields_remove (i : Int) (s : AppState) :
    (remove_task i s).session_state = s.session_state ∧
    (remove_task i s).timer_seconds = s.timer_seconds := by
  unfold remove_task show_notification
  split_ifs <;> exact ⟨rfl, rfl⟩

theorem timer_inv_execute (now : Int) (cmd : ParsedCommand) (s : AppState)
    (h : timer_inv s) : timer_inv (execute_command now cmd s) := by
  obtain ⟨ty, arg⟩ := cmd
  cases ty <;> simp only [execute_command]
  case CMD_NONE => exact h
  case CMD_ADD_TASK =>
    split_ifs
    · exact timer_inv_congr s _ (fields_add_task _ _).1 (fields_add_task _ _).2 h
    · exact h
  case CMD_SET_FOCUS =>
    split_ifs
    · exact timer_inv_congr s _ rfl rfl h
    · exact h
  case CMD_MARK_DONE =>
    rcases hv : validate_task_number arg with _ | n <;> simp only [hv]
    · exact timer_inv_congr s _ rfl rfl h
    · split_ifs
      · exact timer_inv_congr s _ (fields_mark _ _).1 (fields_mark _ _).2 h
      · exact timer_inv_congr s _ rfl rfl h
  case CMD_UNMARK =>
    rcases hv : validate_task_number arg with _ | n <;> simp only [hv]
    · exact timer_inv_congr s _ rfl rfl h
    · split_ifs
      · exact timer_inv_congr s _ (fields_unmark _ _).1 (fields_unmark _ _).2 h
      · exact timer_inv_congr s _ rfl rfl h
  case CMD_REMOVE =>
    rcases hv : validate_task_number arg with _ | n <;> simp only [hv]
    · exact timer_inv_congr s _ rfl rfl h
    · split_ifs
      · exact timer_inv_congr s _ (fields_remove _ _).1 (fields_remove _ _).2 h
      · exact timer_inv_congr s _ rfl rfl h
  case CMD_START_FOCUS => exact timer_inv_start_focus now s h
  case CMD_START_BREAK => exact timer_inv_start_break now s h
  case CMD_STOP => exact timer_inv_stop s h
  case CMD_SKIP => exact timer_inv_skip s h
  case CMD_QUIT => exact timer_inv_congr s _ rfl rfl h
  case CMD_HELP => exact h

theorem timer_inv_finish (now : Int) (s : AppState) (h : timer_inv s) :
    timer_inv (finish_command_input now s) := by
  have h0 : timer_inv { s with input_mode := false } := timer_inv_congr s _ rfl rfl h
  simp only [finish_command_input, parse_command]
  split_ifs
  · rcases hp :
      parse_command_input ({ s with input_mode := false } : AppState).input_buffer
      with _ | cmd <;> simp only [hp]
    · exact timer_inv_congr _ _ rfl rfl h0
    · exact timer_inv_congr _ _ rfl rfl (timer_inv_execute now cmd _ h0)
  · exact h0

theorem timer_inv_normal_key (ch now : Int) (s : AppState) (h : timer_inv s) :
    timer_inv (normal_mode_key ch now s) := by
  unfold normal_mode_key
  by_cases h1 : ch = 97 ∨ ch = 65
  · rw [if_pos h1]; exact timer_inv_start_focus now s h
  rw [if_neg h1]
  by_cases h2 : ch = 115 ∨ ch = 83
  · rw [if_pos h2]; exact timer_inv_stop s h
  rw [if_neg h2]
  by_cases h3 : ch = 100 ∨ ch = 68
  · rw [if_pos h3]; exact timer_inv_skip s h
  rw [if_neg h3]
  by_cases h4 : ch = 102 ∨ ch = 70
  · rw [if_pos h4]; exact timer_inv_start_break now s h
  rw [if_neg h4]
  by_cases h5 : ch = 106 ∨ ch = 74
  · rw [if_pos h5]
    split_ifs
    · exact timer_inv_congr s _ (fields_mark _ _).1 (fields_mark _ _).2 h
    · exact timer_inv_congr s _ (fields_mark _ _).1 (fields_mark _ _).2 h
    · exact h
  rw [if_neg h5]
  by_cases h6 : ch = 107 ∨ ch = 75
  · rw [if_pos h6]
    split_ifs
    · exact timer_inv_congr s _ (fields_unmark _ _).1 (fields_unmark _ _).2 h
    · exact h
  rw [if_neg h6]
  by_cases h7 : ch = 108 ∨ ch = 76
  · rw [if_pos h7]
    split_ifs
    · exact timer_inv_congr s _ (fields_remove _ _).1 (fields_remove _ _).2 h
    · exact timer_inv_congr s _ (fields_remove _ _).1 (fields_remove _ _).2 h
    · exact h
  rw [if_neg h7]
  by_cases h8 : ch = 119 ∨ ch = 87
  · rw [if_pos h8]
    split_ifs
    · exact timer_inv_congr s _ rfl rfl h
    · exact h
  rw [if_neg h8]
  by_cases h9 : ch = 120 ∨ ch = 88
  · rw [if_pos h9]
    split_ifs
    · exact timer_inv_congr s _ rfl rfl h
    · exact h
  rw [if_neg h9]
  by_cases h10 : ch = 10 ∨ ch = 13
  · rw [if_pos h10]; exact timer_inv_congr s _ rfl rfl h
  rw [if_neg h10]
  by_cases h11 : ch = 32
  · rw [if_pos h11]
    split_ifs
    · exact timer_inv_congr s _ rfl rfl h
    · exact h
  · rw [if_neg h11]; exact h

theorem timer_inv_handle_key (ch now : Int) (s : AppState) (h : timer_inv s) :
    timer_inv (handle_key_input ch now s) := by
  unfold handle_key_input
  by_cases h1 : ch = 27
  · rw [if_pos h1]; exact timer_inv_congr s _ rfl rfl h
  rw [if_neg h1]
  by_cases h2 : ¬s.input_mode = true ∧ (ch = 113 ∨ ch = 81)
  · rw [if_pos h2]; exact timer_inv_congr s _ rfl rfl h
  rw [if_neg h2]
  by_cases h3 : ¬s.input_mode = true ∧ (ch = 63 ∨ ch = 104 ∨ ch = 72)
  · rw [if_pos h3]; exact timer_inv_congr s _ rfl rfl h
  rw [if_neg h3]
  by_cases h4 : ¬s.input_mode = true
  · rw [if_pos h4]; exact timer_inv_normal_key ch now s h
  rw [if_neg h4]
  by_cases h5 : ch = 10 ∨ ch = 13
  · rw [if_pos h5]; exact timer_inv_finish now s h
  rw [if_neg h5]
  by_cases h6 : ch = 263 ∨ ch = 127 ∨ ch = 8
  · rw [if_pos h6]; exact timer_inv_congr s _ rfl rfl h
  rw [if_neg h6]
  by_cases h7 : 32 ≤ ch ∧ ch < 127 ∧ s.input_buffer.length < MAX_INPUT_LEN - 1
  · rw [if_pos h7]; exact timer_inv_congr s _ rfl rfl h
  · rw [if_neg h7]; exact h

theorem timer_inv_loop_iter (s : AppState) (ev : LoopEvent) (h : timer_inv s) :
    timer_inv (loop_iter s ev) := by
  obtain ⟨hinv, hstrong⟩ := timer_inv_expire_strong s h
  obtain ⟨now, key⟩ := ev
  rcases key with _ | ch <;> simp only [loop_iter]
  · split_ifs with hs
    · obtain ⟨ha, hb, hc⟩ := hinv
      have h1 : 1 ≤ (expire_check s).timer_seconds := hstrong hs
      refine ⟨?_, fun hh => absurd hh hs, hc⟩
      show 0 ≤ (expire_check s).timer_seconds - 1
      omega
    · exact hinv
  · exact timer_inv_handle_key ch now _ hinv

theorem run_loop_cons (s : AppState) (ev : LoopEvent) (rest : List LoopEvent) :
    run_loop s (ev :: rest) =
      run_loop (if s.running then loop_iter s ev else s) rest := rfl

theorem timer_inv_run_loop (evs : List LoopEvent) :
    ∀ s : AppState, timer_inv s → timer_inv (run_loop s evs) := by
  induction evs with
  | nil => intro s h; exact h
  | cons ev rest ih =>
    intro s h
    rw [run_loop_cons]
    refine ih _ ?_
    split_ifs
    · exact timer_inv_loop_iter s ev h
    · exact h

/-- C10: starting from any state with an inactive session and the timer
at `FOCUS_DURATION` (the startup values), every sequence of main-loop
iterations — poll timeouts and key events, commands included — keeps
`timer_seconds` non-negative: the expiry check at the top of each
iteration resets a non-positive timer of an active session before the
at-most-one decrement of that iteration can run, and inactive sessions
are never decremented. -/
theorem timer_never_negative :
    ∀ (s0 : AppState) (evs : List LoopEvent),
      s0.session_state = SESSION_INACTIVE → s0.timer_seconds = FOCUS_DURATION →
      0 ≤ (run_loop s0 evs).timer_seconds := by
  intro s0 evs h1 h2
  have h0 : timer_inv s0 :=
    ⟨by rw [h2]; decide, fun _ => by rw [h2]; decide, Or.inl h1⟩
  exact (timer_inv_run_loop evs s0 h0).1

theorem timer_never_negative_witness :
    0 ≤ (run_loop initial_state
      [⟨0, none⟩, ⟨1, some 97⟩, ⟨2, none⟩, ⟨3, some 115⟩]).timer_seconds :=
  timer_never_negative initial_state [⟨0, none⟩, ⟨1, some 97⟩, ⟨2, none⟩, ⟨3, some 115⟩]
    rfl rfl

end FocusForge
